import Mathlib

/-!
Shallow embedding of the consensus aggregation engine of the
textingtheorybot repository (src/shared/api.ts and the server part of
src/main.tsx).  JavaScript numbers are modelled as rationals (ℚ); all
arithmetic appearing in the verified claims is exact in binary floating
point up to the final divisions, so the rational model is faithful for
the comparisons and values below.  Redis hashes are modelled as
association lists, the key-value store as an explicit `Store` record,
and external platform calls as an effect log.
-/

namespace TextingTheory

/-- The `Classification` enum of shared/api.ts. -/
inductive Classification where
  | BRILLIANT
  | GREAT
  | BOOK
  | BEST
  | EXCELLENT
  | GOOD
  | INACCURACY
  | MISTAKE
  | MISS
  | BLUNDER
  | INTERESTING
deriving DecidableEq, Repr

/-- `CLASSIFICATION_WEIGHT` of shared/api.ts (total record, `?? 0` default
is never needed). -/
def CLASSIFICATION_WEIGHT : Classification → ℚ
  | .BRILLIANT => 3
  | .GREAT => 2
  | .BEST => 1
  | .EXCELLENT => 1/2
  | .BOOK => 0
  | .GOOD => 0
  | .INACCURACY => -1/2
  | .MISTAKE => -1
  | .MISS => -1
  | .BLUNDER => -2
  | .INTERESTING => 0

def MIN_VOTES_FOR_BADGE_CONSENSUS : Nat := 10

def MIN_VOTES_FOR_POST_FLAIR : Nat := 1

def MIN_ELO : Int := 100

def MAX_ELO : Int := 3000

def BOOK_MIN_SHARE : ℚ := 1/2

/-- `BOOK_IQM_RANGE = [-1, 1]` (exclusive). -/
def BOOK_IQM_RANGE : ℚ × ℚ := (-1, 1)

def MISS_MIN_SHARE : ℚ := 1/2

/-- `MISS_IQM_RANGE = [-2, 0]` (exclusive). -/
def MISS_IQM_RANGE : ℚ × ℚ := (-2, 0)

/-- Modelled from the spec: `MAX_POST_AGE_TO_VOTE_MS` is imported by
main.tsx but its defining line is not part of the provided sources; the
spec (§4.6) fixes a maximum voting duration and the notification text in
main.tsx says the window is 24 hours, so the constant is 24h in ms.  No
verified claim depends on its numeric value. -/
def MAX_POST_AGE_TO_VOTE_MS : Int := 24 * 60 * 60 * 1000

/-- Modelled from the spec: `MIN_VOTES_TO_SHOW_ELO_IN_POST_FLAIR` is
imported by main.tsx but its defining line is not part of the provided
sources; the spec (§4.5) only says it is a threshold above the
any-flair threshold.  No verified claim depends on its numeric value. -/
def MIN_VOTES_TO_SHOW_ELO_IN_POST_FLAIR : Nat := 100

/-- `interquartileMean` of shared/api.ts.  `Math.floor(n * 0.25)` is
`n / 4` on naturals (exact in doubles), `slice(a, b)` is
`drop a |>.take (b - a)` (empty when `a ≥ b`), `sorted[i]!` is `getD i 0`.
The in-range index theorem below shows the default is never used. -/
def interquartileMean (values : List ℚ) : ℚ :=
  let n := values.length
  if n = 0 then 0
  else if n = 1 then values.headD 0
  else
    let sorted := values.insertionSort (· ≤ ·)
    let trimAmount : ℚ := (n : ℚ) * (1/4)
    let k : Nat := n / 4
    let g : ℚ := trimAmount - (k : ℚ)
    let coreSlice := (sorted.drop (k + 1)).take (n - (k + 1) - (k + 1))
    let weightedSum : ℚ := coreSlice.foldl (· + ·) 0
    let boundaryWeight : ℚ := 1 - g
    let ws : ℚ := weightedSum + sorted.getD k 0 * boundaryWeight
      + sorted.getD (n - 1 - k) 0 * boundaryWeight
    let totalWeight : ℚ := (n : ℚ) - 2 * trimAmount
    ws / totalWeight

/-- `iqmToClassification` of shared/api.ts.  `voteCounts[c] ?? 0` is a
total function `Classification → Nat`.  (In Lean `x / 0 = 0`; every call
site passes `totalVotes > 0`, matching the JS callers.) -/
def iqmToClassification (iqm : ℚ) (voteCounts : Classification → Nat)
    (totalVotes : Nat) : Classification :=
  let bookShare : ℚ := (voteCounts .BOOK : ℚ) / (totalVotes : ℚ)
  if bookShare ≥ BOOK_MIN_SHARE ∧ iqm > BOOK_IQM_RANGE.1 ∧ iqm < BOOK_IQM_RANGE.2 then
    .BOOK
  else
    let missShare : ℚ := (voteCounts .MISS : ℚ) / (totalVotes : ℚ)
    if missShare ≥ MISS_MIN_SHARE ∧ iqm > MISS_IQM_RANGE.1 ∧ iqm < MISS_IQM_RANGE.2 then
      .MISS
    else if iqm ≥ 5/2 then .BRILLIANT
    else if iqm ≥ 3/2 then .GREAT
    else if iqm ≥ 3/4 then .BEST
    else if iqm ≥ 1/4 then .EXCELLENT
    else if iqm ≥ -(1/4) then .GOOD
    else if iqm ≥ -(3/4) then .INACCURACY
    else if iqm ≥ -(3/2) then .MISTAKE
    else .BLUNDER

/-- The spec's "fixed, non-overlapping numeric thresholds ordered
best→worst" (§4.4 step 4), as its own definition so the special-case
rules of `iqmToClassification` can be compared against it. -/
def standardIqmMapping (iqm : ℚ) : Classification :=
  if iqm ≥ 5/2 then .BRILLIANT
  else if iqm ≥ 3/2 then .GREAT
  else if iqm ≥ 3/4 then .BEST
  else if iqm ≥ 1/4 then .EXCELLENT
  else if iqm ≥ -(1/4) then .GOOD
  else if iqm ≥ -(3/4) then .INACCURACY
  else if iqm ≥ -(3/2) then .MISTAKE
  else .BLUNDER

/-! ### Redis hashes as association lists -/

/-- Field lookup in a redis hash (association list, insertion order). -/
def assocGet {α : Type} (h : List (String × α)) (k : String) : Option α :=
  (h.find? (fun e => e.1 = k)).map (·.2)

/-- `hSet`: overwrite the field if present, else append it. -/
def assocSet {α : Type} (h : List (String × α)) (k : String) (v : α) :
    List (String × α) :=
  if h.any (fun e => e.1 = k) then
    h.map (fun e => if e.1 = k then (k, v) else e)
  else h ++ [(k, v)]

/-- `hDel` of a single field. -/
def assocDel {α : Type} (h : List (String × α)) (k : String) :
    List (String × α) :=
  h.filter (fun e => e.1 ≠ k)

/-- A badge's aggregate vote hash `votesKey(post, badge)` (voterId →
classification) and a voter's personal hash `userVotesKey(post, user)`
(badgeId → classification) share this shape. -/
abbrev Hash := List (String × Classification)

/-- Pointwise update of a string-indexed store map. -/
def fnUpdate {β : Type} (f : String → β) (k : String) (v : β) : String → β :=
  fun x => if x = k then v else f x

/-! ### Data model -/

/-- `BadgeConsensus` of shared/api.ts; `voteCounts` is the
`Partial Record` read through its `?? 0` default. -/
structure BadgeConsensus where
  classification : Option Classification
  totalVotes : Nat
  voteCounts : Classification → Nat
  iqm : ℚ

inductive PostMode where
  | vote
  | annotated
deriving DecidableEq, Repr

inductive EloSide where
  | left
  | right
  | me
  | other
deriving DecidableEq, Repr

/-- A badge placement; only the fields the consensus engine reads. -/
structure BadgePlacement where
  id : String
  order : Option Nat
deriving DecidableEq, Repr

/-- `PostData`, restricted to the fields the engine reads.  `createdAtMs`
is `none` for legacy posts whose timestamp was never backfilled (the JS
falsy test `!postData.createdAtMs`). -/
structure PostData where
  mode : PostMode
  images : List (List BadgePlacement)
  creatorId : String
  createdAtMs : Option Int
  eloSide : Option EloSide
  eloOtherText : Option String

/-- `getAllPlacements` (the JS version also tags each placement with its
image index, which the vote handlers never read). -/
def getAllPlacements (postData : PostData) : List BadgePlacement :=
  postData.images.flatten

/-- `isVoteWindowOpen` of main.tsx. -/
def isVoteWindowOpen (now : Int) (postData : PostData) : Bool :=
  match postData.createdAtMs with
  | none => true
  | some t => now - t ≤ MAX_POST_AGE_TO_VOTE_MS

def MIN_VOTER_ACCOUNT_AGE_DAYS : Int := 7

def MIN_VOTER_TOTAL_KARMA : Int := 10

/-- The fields of the reddit user record read by `isEligibleVoter`. -/
structure UserInfo where
  createdAtMs : Int
  linkKarma : Int
  commentKarma : Int

/-- Outcome of the best-effort `getBannedUsers` lookup: the voter is on
the ban list, is not on it, or the lookup threw. -/
inductive BanCheck where
  | banned
  | notBanned
  | lookupFailed
deriving DecidableEq, Repr

/-- The external collaborators consumed by the engine: current time, the
identity source, and the ban list of the post's community. -/
structure Env where
  now : Int
  getUser : String → Option UserInfo
  banCheck : BanCheck
  subreddit : Option String

/-- `isEligibleVoter` of main.tsx.  A thrown ban lookup is caught and
voting continues (best-effort), exactly as the `try/catch` does. -/
def isEligibleVoter (env : Env) (postData : PostData) (userId : String) :
    Bool :=
  if userId = postData.creatorId then false
  else
    match env.getUser userId with
    | none => false
    | some user =>
      let ageMs := env.now - user.createdAtMs
      let minAgeMs : Int := MIN_VOTER_ACCOUNT_AGE_DAYS * 24 * 60 * 60 * 1000
      if ageMs < minAgeMs then false
      else if user.linkKarma + user.commentKarma < MIN_VOTER_TOTAL_KARMA then
        false
      else
        match env.subreddit with
        | none => true
        | some _ =>
          match env.banCheck with
          | .banned => false
          | .notBanned => true
          | .lookupFailed => true

/-! ### The key-value store and the external effect log -/

/-- External platform calls, recorded in order.  `tryUpdateUserFlair`
(which may set a user flair and send one private message, both gated on
further external reads) is abstracted as a single `userFlairAttempt`
event: the verified claims only need to know whether it was invoked. -/
inductive Effect where
  | postFlair (elo : Int) (voteCount : Nat)
      (showVisibleElo colorize includeVoteCount : Bool)
  | userFlairAttempt (elo : Int) (voteCountAtTimeout : Nat)
deriving DecidableEq, Repr

/-- The redis state for one post, plus the effect log.  The consensus
cache value and its `expiresAt` meta entry are written and deleted
together, so they are modelled as one field per window flavour. -/
structure Store where
  personal : String → Hash
  agg : String → Hash
  cacheOpen : Option (List (String × BadgeConsensus))
  cacheClosed : Option (List (String × BadgeConsensus))
  userElo : String → Option Int
  eloVoters : List (String × Int)
  eloVotesArr : Option (List Int)
  eloFinalized : Bool
  eloNoCount : Bool
  effects : List Effect

/-- Redis operations of the badge-vote path, recorded in execution order
(`delCache`/`setCache` stand for the paired value+meta key operations of
`clearConsensusCache`/`writeConsensusCache`). -/
inductive RedisOp where
  | hSetPersonal (userId badgeId : String) (c : Classification)
  | hSetAgg (badgeId userId : String) (c : Classification)
  | hGetPersonal (userId : String)
  | hDelPersonal (userId badgeId : String)
  | hDelAgg (badgeId userId : String)
  | hGetAgg (badgeId : String)
  | delCache (voteWindowOpen : Bool)
  | setCache (voteWindowOpen : Bool)
deriving DecidableEq, Repr

/-- A client-visible error (`throw { status, message }`; a bare
`throw new Error` surfaces as status 500 via `serverOnRequest`). -/
structure ErrObj where
  status : Nat
  message : String
deriving DecidableEq, Repr

/-- `clearConsensusCache`: delete both window flavours (value and meta). -/
def clearConsensusCache (s : Store) : Store :=
  { s with cacheOpen := none, cacheClosed := none }

/-- `writeConsensusCache` for one window flavour. -/
def writeConsensusCache (voteWindowOpen : Bool)
    (consensus : List (String × BadgeConsensus)) (s : Store) : Store :=
  if voteWindowOpen then { s with cacheOpen := some consensus }
  else { s with cacheClosed := some consensus }

/-! ### Consensus computation -/

/-- `computeBadgeConsensus` of main.tsx.  `Object.entries` of the vote
hash is the association list itself. -/
def computeBadgeConsensus (allVotes : Hash) : BadgeConsensus :=
  let totalVotes := allVotes.length
  if totalVotes = 0 then
    { classification := none, totalVotes := 0, voteCounts := fun _ => 0,
      iqm := 0 }
  else
    let voteCounts : Classification → Nat :=
      allVotes.foldl (fun acc e c => if c = e.2 then acc c + 1 else acc c)
        (fun _ => 0)
    let weights := allVotes.map (fun e => CLASSIFICATION_WEIGHT e.2)
    let iqm := interquartileMean weights
    let classification :=
      if totalVotes ≥ MIN_VOTES_FOR_BADGE_CONSENSUS then
        some (iqmToClassification iqm voteCounts totalVotes)
      else none
    { classification := classification, totalVotes := totalVotes,
      voteCounts := voteCounts, iqm := iqm }

/-- The per-badge consensus computed by the init path (`onInit`,
cache-miss branch, `mode = "vote"`): after the voting window has closed,
a badge with at least one vote but no quorum classification is assigned
`iqmToClassification` anyway. -/
def initBadgeConsensus (voteWindowOpen : Bool) (allVotes : Hash) :
    BadgeConsensus :=
  let computed := computeBadgeConsensus allVotes
  let forced := iqmToClassification computed.iqm computed.voteCounts
    computed.totalVotes
  if ¬voteWindowOpen ∧ computed.classification = none ∧
      computed.totalVotes > 0 then
    { computed with classification := some forced }
  else computed

/-! ### Book-chain invalidation -/

/-- `placement.order ?? 0`. -/
def orderD (p : BadgePlacement) : Nat := p.order.getD 0

/-- The placements of all images, sorted by `order ?? 0` (stable sort,
matching `Array.prototype.sort`). -/
def sortedPlacements (postData : PostData) : List BadgePlacement :=
  (postData.images.flatten).insertionSort (fun a b => orderD a ≤ orderD b)

/-- The walk of `invalidateBrokenBookVotes`: sequence order, a
`canContinueBook` flag, and deletion from the in-memory personal map as
invalid Book votes are found. -/
def walkInvalid : List BadgePlacement → Hash → Bool → List String
  | [], _, _ => []
  | p :: rest, votes, canContinueBook =>
    match assocGet votes p.id with
    | none => walkInvalid rest votes false
    | some vote =>
      if vote = Classification.BOOK then
        if canContinueBook then walkInvalid rest votes true
        else p.id :: walkInvalid rest (assocDel votes p.id) false
      else walkInvalid rest votes false

/-- One iteration of the deletion loop of `invalidateBrokenBookVotes`:
`hDel` the badge from the voter's personal hash, and when the voter is
eligible also from the badge's aggregate hash. -/
def invalidationStep (userId : String) (eligible : Bool)
    (acc : Store × List RedisOp) (badgeId : String) :
    Store × List RedisOp :=
  let st := acc.1
  let personal1 := fnUpdate st.personal userId
    (assocDel (st.personal userId) badgeId)
  let st1 := { st with personal := personal1 }
  let ops1 := acc.2 ++ [RedisOp.hDelPersonal userId badgeId]
  if eligible then
    let agg1 := fnUpdate st1.agg badgeId (assocDel (st1.agg badgeId) userId)
    ({ st1 with agg := agg1 }, ops1 ++ [RedisOp.hDelAgg badgeId userId])
  else (st1, ops1)

/-- `invalidateBrokenBookVotes` of main.tsx: compute the broken Book
votes for this voter, then delete each from the personal view and — when
the voter is eligible — from the aggregate view. -/
def invalidateBrokenBookVotes (userId : String) (postData : PostData)
    (eligible : Bool) (s : Store) : Store × List String × List RedisOp :=
  let currentUserVotes := s.personal userId
  let placements := sortedPlacements postData
  let invalidatedBadgeIds := walkInvalid placements currentUserVotes true
  let folded := invalidatedBadgeIds.foldl (invalidationStep userId eligible)
    (s, [RedisOp.hGetPersonal userId])
  (folded.1, invalidatedBadgeIds, folded.2)

/-- Follows the spec's words (§4.3): per voter the designated tag must
form an unbroken prefix of the sequence, so the invalid votes are
exactly the Book votes at positions strictly after the leading run of
Book votes. -/
def specBrokenBookIds (placements : List BadgePlacement) (votes : Hash) :
    List String :=
  let leading := (placements.takeWhile
    (fun p => assocGet votes p.id = some Classification.BOOK)).length
  ((placements.drop leading).filter
    (fun p => assocGet votes p.id = some Classification.BOOK)).map (·.id)

/-! ### The vote handlers -/

structure VoteBadgeRequest where
  badgeId : String
  classification : Classification

structure VoteBadgeResponse where
  consensus : Option BadgeConsensus
  allConsensus : List (String × BadgeConsensus)
  counted : Bool
  invalidatedBadgeIds : List String

/-- `onVoteBadge` of main.tsx, as a transformer of the per-post store.
Errors are thrown before any write, so an `.error` result leaves the
caller's store untouched by construction. -/
def onVoteBadge (env : Env) (postData : PostData) (userId : String)
    (body : VoteBadgeRequest) (s : Store) :
    Except ErrObj (Store × VoteBadgeResponse × List RedisOp) :=
  if postData.creatorId = userId then
    .error ⟨403, "You can't vote on your own post"⟩
  else if ¬ isVoteWindowOpen env.now postData then
    .error ⟨403, "Voting has ended for this post"⟩
  else
    let allPlacements := getAllPlacements postData
    match allPlacements.find? (fun p => p.id = body.badgeId) with
    | none => .error ⟨500, "Badge not found"⟩
    | some _ =>
      let eligible := isEligibleVoter env postData userId
      let personal1 := fnUpdate s.personal userId
        (assocSet (s.personal userId) body.badgeId body.classification)
      let s1 := { s with personal := personal1 }
      let ops1 := [RedisOp.hSetPersonal userId body.badgeId
        body.classification]
      let afterAgg :=
        if eligible then
          let agg1 := fnUpdate s1.agg body.badgeId
            (assocSet (s1.agg body.badgeId) userId body.classification)
          ({ s1 with agg := agg1 },
           ops1 ++ [RedisOp.hSetAgg body.badgeId userId body.classification])
        else (s1, ops1)
      let inv := invalidateBrokenBookVotes userId postData eligible
        afterAgg.1
      let s3 := inv.1
      let invalidatedBadgeIds := inv.2.1
      let allConsensus := allPlacements.map
        (fun p => (p.id, computeBadgeConsensus (s3.agg p.id)))
      let opsRead := allPlacements.map (fun p => RedisOp.hGetAgg p.id)
      let s4 := clearConsensusCache s3
      let s5 := writeConsensusCache true allConsensus s4
      .ok (s5,
        { consensus := (allConsensus.find? (fun e => e.1 = body.badgeId)).map
            (·.2),
          allConsensus := allConsensus, counted := eligible,
          invalidatedBadgeIds := invalidatedBadgeIds },
        afterAgg.2 ++ inv.2.2 ++ opsRead ++
          [RedisOp.delCache true, RedisOp.delCache false,
           RedisOp.setCache true])

/-- JavaScript `Math.round` (half-up). -/
def roundJS (q : ℚ) : Int := Int.floor (q + 1/2)

/-- `updatePostFlair` of main.tsx, with the option defaults already
applied by the caller.  The flair text formatting is external display
and is carried by the effect record's fields. -/
def updatePostFlair (env : Env) (s : Store) (elo : Int) (voteCount : Nat)
    (showVisibleElo colorize tryUserFlair includeVoteCount : Bool) :
    Store :=
  match env.subreddit with
  | none => s
  | some _ =>
    let s1 := { s with effects := s.effects ++
      [Effect.postFlair elo voteCount showVisibleElo colorize
        includeVoteCount] }
    if tryUserFlair then
      { s1 with effects := s1.effects ++
        [Effect.userFlairAttempt elo voteCount] }
    else s1

/-- `finalizeEloIfTimedOut` of main.tsx. -/
def finalizeEloIfTimedOut (env : Env) (postData : PostData) (s : Store) :
    Store :=
  if postData.mode ≠ PostMode.vote then s
  else if isVoteWindowOpen env.now postData then s
  else
    let alreadyFinalized := s.eloFinalized
    let noCountApplied := s.eloNoCount
    if alreadyFinalized && noCountApplied then s
    else
      let eloArr := s.eloVotesArr.getD []
      let voteCount := eloArr.length
      if voteCount < MIN_VOTES_FOR_POST_FLAIR then
        { s with eloFinalized := true, eloNoCount := true }
      else
        let consensusElo := roundJS (interquartileMean
          (eloArr.map (fun x => (x : ℚ))))
        let showVisibleElo :=
          decide (voteCount ≥ MIN_VOTES_TO_SHOW_ELO_IN_POST_FLAIR)
        let s1 := updatePostFlair env s consensusElo voteCount true
          showVisibleElo (showVisibleElo && !alreadyFinalized) false
        { s1 with eloFinalized := true, eloNoCount := true }

/-- `getEloTargetLabel` of main.tsx
(`eloOtherText?.trim() || "other"`). -/
def getEloTargetLabel (postData : PostData) : String :=
  match postData.eloSide with
  | some .left => "left"
  | some .me => "me"
  | some .other =>
    let t := (postData.eloOtherText.getD "").trim
    if t = "" then "other" else t
  | _ => "right"

structure VoteEloResponse where
  consensusElo : Int
  voteCount : Nat
  counted : Bool
  targetLabel : String

/-- `onVoteElo` of main.tsx. -/
def onVoteElo (env : Env) (postData : PostData) (userId : String)
    (bodyElo : Int) (s : Store) : Except ErrObj (Store × VoteEloResponse) :=
  if postData.creatorId = userId then
    .error ⟨403, "You can't vote on your own post"⟩
  else if ¬ isVoteWindowOpen env.now postData then
    .error ⟨403, "Voting has ended for this post"⟩
  else
    let elo := max MIN_ELO (min MAX_ELO bodyElo)
    let eligible := isEligibleVoter env postData userId
    let s1 := { s with userElo := fnUpdate s.userElo userId (some elo) }
    let allEloVoters :=
      if eligible then assocSet s1.eloVoters userId elo else s1.eloVoters
    let s2 := if eligible then { s1 with eloVoters := allEloVoters } else s1
    let eloArr : List Int := allEloVoters.map (·.2)
    let s3 := { s2 with eloVotesArr := some eloArr }
    let voteCount := eloArr.length
    let consensusElo :=
      if voteCount > 0 then
        roundJS (interquartileMean (eloArr.map (fun x => (x : ℚ))))
      else elo
    let s4 :=
      if voteCount > 0 && isVoteWindowOpen env.now postData then
        updatePostFlair env s3 consensusElo voteCount
          (decide (voteCount ≥ MIN_VOTES_TO_SHOW_ELO_IN_POST_FLAIR))
          false false true
      else s3
    let s5 := finalizeEloIfTimedOut env postData s4
    let resp : VoteEloResponse :=
      ⟨consensusElo, voteCount, eligible, getEloTargetLabel postData⟩
    .ok (s5, resp)

/-! ### Trace predicates -/

/-- A read of a badge's aggregate vote hash (the input of the consensus
recomputation). -/
def isConsensusRead : RedisOp → Bool
  | .hGetAgg _ => true
  | _ => false

/-- A consensus-cache delete (either window flavour). -/
def isCacheDelete : RedisOp → Bool
  | .delCache _ => true
  | _ => false

/-- Does some consensus recompute read occur strictly before some
consensus-cache delete in the trace? -/
def readBeforeCacheDelete : List RedisOp → Bool
  | [] => false
  | op :: rest =>
    (isConsensusRead op && rest.any isCacheDelete) ||
      readBeforeCacheDelete rest

/-! ### Concrete fixtures used by the witnesses and counterexamples -/

/-- A voter account 8 days old with 100 combined karma. -/
def goodUser : UserInfo := ⟨-691200000, 50, 50⟩

/-- A voter account 8 days old with zero karma (fails the karma rule). -/
def lowKarmaUser : UserInfo := ⟨-691200000, 0, 0⟩

/-- One second past post creation, every lookup finds `goodUser`, no ban. -/
def sampleEnv : Env := ⟨1000, fun _ => some goodUser, .notBanned, some "tt"⟩

/-- Same clock, but every lookup finds `lowKarmaUser`. -/
def envIneligible : Env :=
  ⟨1000, fun _ => some lowKarmaUser, .notBanned, some "tt"⟩

/-- A vote-mode post created at epoch with three ordered badges. -/
def samplePost : PostData :=
  ⟨.vote, [[⟨"b1", some 0⟩, ⟨"b2", some 1⟩, ⟨"b3", some 2⟩]], "creator",
    some 0, some .right, none⟩

/-- The empty per-post store. -/
def emptyStore : Store :=
  ⟨fun _ => [], fun _ => [], none, none, fun _ => none, [], none, false,
    false, []⟩

/-- A store whose two finalization markers are both set. -/
def finalizedStore : Store :=
  { emptyStore with eloFinalized := true, eloNoCount := true }

/-- Store in which voter `v` has voted `[Book, Book, Best]` on
`b1 < b2 < b3`, both in the personal and in the aggregate view. -/
def bookChainStore : Store :=
  { emptyStore with
    personal := fnUpdate emptyStore.personal "v"
      [("b1", Classification.BOOK), ("b2", Classification.BOOK),
       ("b3", Classification.BEST)],
    agg := fun b =>
      if b = "b1" then [("v", Classification.BOOK)]
      else if b = "b2" then [("v", Classification.BOOK)]
      else if b = "b3" then [("v", Classification.BEST)]
      else [] }

end TextingTheory
namespace TextingTheory

/-- Deleting one hash field leaves lookups of other fields unchanged. -/
theorem assocGet_assocDel_ne {α : Type} (h : List (String × α)) (k b : String)
    (hne : b ≠ k) : assocGet (assocDel h k) b = assocGet h b := by
  unfold assocGet assocDel
  rw [List.find?_filter]
  have hpred : (fun a : String × α =>
      decide (decide (a.1 ≠ k) = true ∧ decide (a.1 = b) = true)) =
      fun e : String × α => decide (e.1 = b) := by
    funext a
    by_cases hab : a.1 = b
    · by_cases hak : a.1 = k
      · exact absurd (hab.symm.trans hak) hne
      · simp [hab, hak]
        exact hne
    · simp [hab]
  rw [hpred]

/-- After deleting a field, looking it up gives nothing. -/
theorem assocGet_assocDel_self {α : Type} (h : List (String × α))
    (k : String) : assocGet (assocDel h k) k = none := by
  unfold assocGet assocDel
  rw [List.find?_filter]
  rw [List.find?_eq_none.mpr]
  · rfl
  · intro x _
    by_cases hxk : x.1 = k <;> simp [hxk]

/-- After `hSet`, looking the field up gives the written value. -/
theorem assocGet_assocSet_self {α : Type} (h : List (String × α))
    (k : String) (v : α) : assocGet (assocSet h k v) k = some v := by
  unfold assocGet assocSet
  by_cases hany : h.any (fun e => decide (e.1 = k)) = true
  · rw [if_pos hany, List.find?_map]
    simp only [Function.comp_def]
    have hpred : (fun e : String × α =>
        decide ((if e.1 = k then (k, v) else e).1 = k)) =
        fun e : String × α => decide (e.1 = k) := by
      funext e
      by_cases he : e.1 = k <;> simp [he]
    rw [hpred]
    cases hfind : h.find? (fun e => decide (e.1 = k)) with
    | none =>
      obtain ⟨x, hx, hxk⟩ := List.any_eq_true.mp hany
      rw [List.find?_eq_none] at hfind
      exact absurd hxk (hfind x hx)
    | some e0 =>
      have he0 : e0.1 = k := by
        have h1 := List.find?_some hfind
        simpa using h1
      simp [he0]
  · rw [if_neg hany, List.find?_append]
    rw [List.find?_eq_none.mpr]
    · simp [List.find?]
    · intro x hx hcontra
      exact hany (List.any_eq_true.mpr ⟨x, hx, hcontra⟩)

/-- Characterization of `isEligibleVoter`: it returns `true` exactly when
the voter is not the creator, the identity lookup succeeds, the account
age and combined karma meet the thresholds, and — when the community is
known — the ban lookup did not positively report a ban (a failed lookup
passes). -/
theorem isEligibleVoter_iff (env : Env) (postData : PostData)
    (userId : String) :
    isEligibleVoter env postData userId = true ↔
      (userId ≠ postData.creatorId ∧ ∃ u, env.getUser userId = some u ∧
        MIN_VOTER_ACCOUNT_AGE_DAYS * 24 * 60 * 60 * 1000 ≤
          env.now - u.createdAtMs ∧
        MIN_VOTER_TOTAL_KARMA ≤ u.linkKarma + u.commentKarma ∧
        (env.subreddit ≠ none → env.banCheck ≠ BanCheck.banned)) := by
  unfold isEligibleVoter
  by_cases hc : userId = postData.creatorId
  · simp [hc]
  · cases hu : env.getUser userId with
    | none => simp [hc, hu]
    | some u =>
      by_cases hage : env.now - u.createdAtMs <
          MIN_VOTER_ACCOUNT_AGE_DAYS * 24 * 60 * 60 * 1000
      · simp [hc, hu, hage, not_le.mpr hage]
      · by_cases hk : u.linkKarma + u.commentKarma < MIN_VOTER_TOTAL_KARMA
        · simp [hc, hu, hage, hk, not_le.mpr hk]
        · cases hsub : env.subreddit with
          | none => simp [hc, hu, hage, hk, hsub, not_lt.mp hage, not_lt.mp hk]
          | some sr =>
            cases hb : env.banCheck <;>
              simp [hc, hu, hage, hk, hsub, hb, not_lt.mp hage, not_lt.mp hk]

/-- Claim C5: a vote counts toward consensus (`counted = true` in a
successful badge-vote response) only if the voter is not the post's
creator, the voting window is open, the identity lookup succeeds with
account age and combined karma above the thresholds, and the ban lookup
did not positively report a ban (a failed lookup is treated as not banned
and does not block eligibility, per `isEligibleVoter_iff`). -/
theorem c5_thm (env : Env) (postData : PostData) (userId : String)
    (body : VoteBadgeRequest) (s : Store)
    (out : Store × VoteBadgeResponse × List RedisOp)
    (hok : onVoteBadge env postData userId body s = Except.ok out)
    (hc : out.2.1.counted = true) :
    userId ≠ postData.creatorId ∧
    isVoteWindowOpen env.now postData = true ∧
    (∃ u, env.getUser userId = some u ∧
      MIN_VOTER_ACCOUNT_AGE_DAYS * 24 * 60 * 60 * 1000 ≤
        env.now - u.createdAtMs ∧
      MIN_VOTER_TOTAL_KARMA ≤ u.linkKarma + u.commentKarma ∧
      (env.subreddit ≠ none → env.banCheck ≠ BanCheck.banned)) ∧
    isEligibleVoter env postData userId = true := by
  simp only [onVoteBadge] at hok
  by_cases h1 : postData.creatorId = userId
  · rw [if_pos h1] at hok
    exact absurd hok (by simp)
  · rw [if_neg h1] at hok
    by_cases h2 : isVoteWindowOpen env.now postData = true
    · rw [if_neg (fun hn => hn h2)] at hok
      cases hfind : List.find? (fun p => decide (p.id = body.badgeId))
          (getAllPlacements postData) with
      | none =>
        rw [hfind] at hok
        exact absurd hok (by simp)
      | some p =>
        rw [hfind, Except.ok.injEq] at hok
        have heligible : isEligibleVoter env postData userId = true := by
          rw [← hok] at hc
          exact hc
        refine ⟨fun hcc => h1 hcc.symm, h2, ?_, heligible⟩
        exact ((isEligibleVoter_iff env postData userId).mp heligible).2
    · rw [if_pos (by simpa using h2)] at hok
      exact absurd hok (by simp)

/-- Witness for C5: a concrete counted vote. -/
theorem c5_witness :
    "v" ≠ samplePost.creatorId ∧
    isVoteWindowOpen sampleEnv.now samplePost = true ∧
    (∃ u, sampleEnv.getUser "v" = some u ∧
      MIN_VOTER_ACCOUNT_AGE_DAYS * 24 * 60 * 60 * 1000 ≤
        sampleEnv.now - u.createdAtMs ∧
      MIN_VOTER_TOTAL_KARMA ≤ u.linkKarma + u.commentKarma ∧
      (sampleEnv.subreddit ≠ none → sampleEnv.banCheck ≠ BanCheck.banned)) ∧
    isEligibleVoter sampleEnv samplePost "v" = true :=
  c5_thm sampleEnv samplePost "v" ⟨"b1", Classification.BEST⟩ emptyStore _
    rfl (by decide)

/-- Claim C6: a badge-vote or Elo-vote request from the post's creator is
rejected with a status-403 error; the error is raised before any write,
so no personal, aggregate or cache state changes and the creator's vote
never reaches the aggregate view. -/
theorem c6_thm (env : Env) (postData : PostData) (userId : String)
    (body : VoteBadgeRequest) (bodyElo : Int) (s : Store)
    (h : postData.creatorId = userId) :
    onVoteBadge env postData userId body s =
      Except.error ⟨403, "You can't vote on your own post"⟩ ∧
    onVoteElo env postData userId bodyElo s =
      Except.error ⟨403, "You can't vote on your own post"⟩ := by
  constructor
  · rw [onVoteBadge, if_pos h]
  · rw [onVoteElo, if_pos h]

/-- Witness for C6: the creator's own requests are rejected. -/
theorem c6_witness :
    onVoteBadge sampleEnv samplePost "creator"
      ⟨"b1", Classification.BEST⟩ emptyStore =
      Except.error ⟨403, "You can't vote on your own post"⟩ ∧
    onVoteElo sampleEnv samplePost "creator" 1200 emptyStore =
      Except.error ⟨403, "You can't vote on your own post"⟩ :=
  c6_thm sampleEnv samplePost "creator" ⟨"b1", Classification.BEST⟩ 1200
    emptyStore rfl

/-- Claim C8: once both stored markers (`finalized`,
`finalDisplayApplied`) are set, every further run of the Elo finalization
routine returns the store unchanged — no flair update, no user-flair
update, no notification, no state write. -/
theorem c8_thm (env : Env) (postData : PostData) (s : Store)
    (hf : s.eloFinalized = true) (hn : s.eloNoCount = true) :
    finalizeEloIfTimedOut env postData s = s := by
  unfold finalizeEloIfTimedOut
  simp [hf, hn]

/-- Witness for C8 on a store with both markers set. -/
theorem c8_witness :
    finalizeEloIfTimedOut sampleEnv samplePost finalizedStore =
      finalizedStore :=
  c8_thm sampleEnv samplePost finalizedStore rfl rfl

/-- The invalidation deletion loop of an ineligible voter never touches
the aggregate view. -/
theorem foldl_inv_agg_ineligible (u : String) (l : List String)
    (acc : Store × List RedisOp) :
    (l.foldl (invalidationStep u false) acc).1.agg = acc.1.agg := by
  induction l generalizing acc with
  | nil => rfl
  | cons b t ih =>
    rw [List.foldl_cons, ih]
    rfl

/-- The invalidation deletion loop changes the voter's personal hash only
at the invalidated badge ids. -/
theorem foldl_inv_personal_notin (u : String) (e : Bool) (b : String)
    (l : List String) (acc : Store × List RedisOp) (hb : b ∉ l) :
    assocGet ((l.foldl (invalidationStep u e) acc).1.personal u) b =
      assocGet (acc.1.personal u) b := by
  induction l generalizing acc with
  | nil => rfl
  | cons b' t ih =>
    rw [List.foldl_cons, ih _ (fun hm => hb (List.mem_cons_of_mem _ hm))]
    have hne : b ≠ b' := fun hbe => hb (hbe ▸ List.mem_cons_self _ _)
    cases e <;>
      simp [invalidationStep, fnUpdate, assocGet_assocDel_ne _ _ _ hne]

/-- The invalidation deletion loop changes the aggregate view only at the
invalidated badge ids. -/
theorem foldl_inv_agg_notin (u : String) (e : Bool) (b : String)
    (l : List String) (acc : Store × List RedisOp) (hb : b ∉ l) :
    (l.foldl (invalidationStep u e) acc).1.agg b = acc.1.agg b := by
  induction l generalizing acc with
  | nil => rfl
  | cons b' t ih =>
    rw [List.foldl_cons, ih _ (fun hm => hb (List.mem_cons_of_mem _ hm))]
    have hne : b ≠ b' := fun hbe => hb (hbe ▸ List.mem_cons_self _ _)
    cases e <;> simp [invalidationStep, fnUpdate, hne]

/-- Claim C7 (amended): a badge vote by a non-creator in an open window
who fails eligibility succeeds with `counted = false`, leaves the
aggregate view completely unchanged, performs the personal-view write
(`hSetPersonal` is in the trace), and the vote is present in the final
personal view unless the book-chain re-validation invalidated it. -/
theorem c7_thm (env : Env) (postData : PostData) (userId : String)
    (body : VoteBadgeRequest) (s : Store)
    (hcr : postData.creatorId ≠ userId)
    (hw : isVoteWindowOpen env.now postData = true)
    (hfp : ∃ p, List.find? (fun p => decide (p.id = body.badgeId))
      (getAllPlacements postData) = some p)
    (hel : isEligibleVoter env postData userId = false) :
    ∃ out : Store × VoteBadgeResponse × List RedisOp,
      onVoteBadge env postData userId body s = Except.ok out ∧
      out.1.agg = s.agg ∧
      out.2.1.counted = false ∧
      RedisOp.hSetPersonal userId body.badgeId body.classification ∈
        out.2.2 ∧
      (body.badgeId ∉ out.2.1.invalidatedBadgeIds →
        assocGet (out.1.personal userId) body.badgeId =
          some body.classification) := by
  obtain ⟨p, hp⟩ := hfp
  simp only [onVoteBadge, hel]
  rw [if_neg hcr, if_neg (fun hn => hn hw), hp]
  simp only [Bool.false_eq_true, if_false]
  refine ⟨_, rfl, ?_, ?_, ?_, ?_⟩
  · simp [writeConsensusCache, clearConsensusCache, invalidateBrokenBookVotes,
      foldl_inv_agg_ineligible]
  · rfl
  · simp
  · intro hnin
    simp only [writeConsensusCache, clearConsensusCache,
      invalidateBrokenBookVotes, if_true] at hnin ⊢
    rw [foldl_inv_personal_notin _ _ _ _ _ hnin]
    simp [fnUpdate, assocGet_assocSet_self]

/-- Hash-field deletes commute. -/
theorem assocDel_comm {α : Type} (h : List (String × α)) (k1 k2 : String) :
    assocDel (assocDel h k1) k2 = assocDel (assocDel h k2) k1 := by
  simp only [assocDel, List.filter_filter]
  congr 1
  funext a
  by_cases h1 : a.1 = k1 <;> by_cases h2 : a.1 = k2 <;> simp [h1, h2]

/-- The walk ignores hash fields whose key is not an id of the remaining
placements (the in-walk delete of an already-visited id is invisible). -/
theorem walkInvalid_del_notmem (rest : List BadgePlacement) (votes : Hash)
    (x : String) (b : Bool) (hx : ∀ p ∈ rest, p.id ≠ x) :
    walkInvalid rest (assocDel votes x) b = walkInvalid rest votes b := by
  induction rest generalizing votes b with
  | nil => rfl
  | cons p t ih =>
    have hpx : p.id ≠ x := hx p (List.mem_cons_self _ _)
    have hxt : ∀ q ∈ t, q.id ≠ x := fun q hq => hx q (List.mem_cons_of_mem _ hq)
    rw [walkInvalid, walkInvalid, assocGet_assocDel_ne votes x p.id hpx]
    cases hg : assocGet votes p.id with
    | none => simp [hg, ih votes false hxt]
    | some v =>
      by_cases hv : v = Classification.BOOK
      · subst hv
        cases b with
        | true => simp [hg, ih votes true hxt]
        | false =>
          simp only [hg, if_true, eq_self_iff_true, Bool.false_eq_true,
            if_false]
          rw [assocDel_comm, ih (assocDel votes p.id) false hxt]
      · simp [hg, hv, ih votes false hxt]

/-- Once the chain is broken (`canContinueBook = false`), the walk
invalidates exactly the remaining Book votes. -/
theorem walkInvalid_false_eq_filter (l : List BadgePlacement) (votes : Hash)
    (hnd : (l.map BadgePlacement.id).Nodup) :
    walkInvalid l votes false =
      (l.filter (fun p => assocGet votes p.id =
        some Classification.BOOK)).map BadgePlacement.id := by
  induction l generalizing votes with
  | nil => rfl
  | cons p t ih =>
    rw [List.map_cons, List.nodup_cons] at hnd
    have hxt : ∀ q ∈ t, q.id ≠ p.id := fun q hq heq =>
      hnd.1 (heq ▸ List.mem_map_of_mem BadgePlacement.id hq)
    rw [walkInvalid]
    cases hg : assocGet votes p.id with
    | none => simp [List.filter_cons, hg, ih votes hnd.2]
    | some v =>
      by_cases hv : v = Classification.BOOK
      · subst hv
        simp only [if_pos rfl, Bool.false_eq_true, if_false]
        rw [walkInvalid_del_notmem t votes p.id false hxt]
        simp [List.filter_cons, hg, ih votes hnd.2]
      · simp [List.filter_cons, hg, hv, ih votes hnd.2]

/-- The walk of `invalidateBrokenBookVotes` computes exactly the spec's
broken-prefix Book votes when the placement ids are distinct. -/
theorem walkInvalid_true_eq_spec (l : List BadgePlacement) (votes : Hash)
    (hnd : (l.map BadgePlacement.id).Nodup) :
    walkInvalid l votes true = specBrokenBookIds l votes := by
  induction l generalizing votes with
  | nil => rfl
  | cons p t ih =>
    rw [List.map_cons, List.nodup_cons] at hnd
    cases hg : assocGet votes p.id with
    | none =>
      simp [walkInvalid, specBrokenBookIds, List.takeWhile_cons,
        List.filter_cons, hg, walkInvalid_false_eq_filter t votes hnd.2]
    | some v =>
      by_cases hv : v = Classification.BOOK
      · subst hv
        simp [walkInvalid, specBrokenBookIds, List.takeWhile_cons, hg,
          ih votes hnd.2]
      · simp [walkInvalid, specBrokenBookIds, List.takeWhile_cons,
          List.filter_cons, hg, hv,
          walkInvalid_false_eq_filter t votes hnd.2]

/-- A field of the voter's personal hash already absent stays absent
through the invalidation deletion loop (the loop only deletes). -/
theorem foldl_inv_personal_none (u : String) (e : Bool) (b : String)
    (l : List String) (acc : Store × List RedisOp)
    (h : assocGet (acc.1.personal u) b = none) :
    assocGet ((l.foldl (invalidationStep u e) acc).1.personal u) b = none := by
  induction l generalizing acc with
  | nil => exact h
  | cons b' t ih =>
    rw [List.foldl_cons]
    apply ih
    by_cases hbb : b = b'
    · subst hbb
      cases e <;> simp [invalidationStep, fnUpdate, assocGet_assocDel_self]
    · cases e <;>
        simp [invalidationStep, fnUpdate, assocGet_assocDel_ne _ _ _ hbb, h]

/-- Every badge id processed by the invalidation deletion loop ends up
absent from the voter's personal hash, whatever the eligibility flag. -/
theorem foldl_inv_personal_mem (u : String) (e : Bool) (b : String)
    (l : List String) (acc : Store × List RedisOp) (hb : b ∈ l) :
    assocGet ((l.foldl (invalidationStep u e) acc).1.personal u) b = none := by
  induction l generalizing acc with
  | nil => cases hb
  | cons b' t ih =>
    rw [List.foldl_cons]
    rcases List.mem_cons.mp hb with hbb | hbt
    · subst hbb
      apply foldl_inv_personal_none
      cases e <;> simp [invalidationStep, fnUpdate, assocGet_assocDel_self]
    · exact ih _ hbt

/-- The voter's field of a badge's aggregate hash already absent stays
absent through the invalidation deletion loop. -/
theorem foldl_inv_agg_none (u : String) (e : Bool) (b : String)
    (l : List String) (acc : Store × List RedisOp)
    (h : assocGet (acc.1.agg b) u = none) :
    assocGet ((l.foldl (invalidationStep u e) acc).1.agg b) u = none := by
  induction l generalizing acc with
  | nil => exact h
  | cons b' t ih =>
    rw [List.foldl_cons]
    apply ih
    cases e with
    | false => simpa [invalidationStep] using h
    | true =>
      by_cases hbb : b = b'
      · subst hbb
        simp [invalidationStep, fnUpdate, assocGet_assocDel_self]
      · simp [invalidationStep, fnUpdate, hbb, h]

/-- When the voter is eligible, the invalidation deletion loop removes
their vote from the aggregate hash of every processed badge id. -/
theorem foldl_inv_agg_mem (u : String) (b : String) (l : List String)
    (acc : Store × List RedisOp) (hb : b ∈ l) :
    assocGet ((l.foldl (invalidationStep u true) acc).1.agg b) u = none := by
  induction l generalizing acc with
  | nil => cases hb
  | cons b' t ih =>
    rw [List.foldl_cons]
    rcases List.mem_cons.mp hb with hbb | hbt
    · subst hbb
      apply foldl_inv_agg_none
      simp [invalidationStep, fnUpdate, assocGet_assocDel_self]
    · exact ih _ hbt

/-- Claim C1 (amended): the book-chain re-validation run after every
classification vote write walks the voter's placements in sequence order
with `canContinue` initialized to true; a missing vote sets it false and
continues, a Book vote with `canContinue` false is invalid and its id
returned, a Book vote with `canContinue` true leaves it true, and any
other classification sets it false — for duplicate-free placement ids
this walk invalidates exactly the Book votes that do not sit on an
unbroken Book prefix (`specBrokenBookIds`).  An invalidated vote is
always deleted from the voter's personal view, but from the aggregate
view only when the voter is currently eligible; for a currently
ineligible voter the aggregate view is left entirely unchanged.  For a
currently eligible voter with votes `[Book, Book, Best]` on
`b1 < b2 < b3`, changing the first vote to Best invalidates the second
vote (absent from the personal and the aggregate view, its id returned
to the caller) and leaves the third vote untouched in both views. -/
theorem c1_thm :
    (∀ (placements : List BadgePlacement) (votes : Hash),
      (placements.map BadgePlacement.id).Nodup →
      walkInvalid placements votes true = specBrokenBookIds placements votes) ∧
    (∀ (userId : String) (postData : PostData) (eligible : Bool) (s : Store)
      (b : String),
      b ∈ (invalidateBrokenBookVotes userId postData eligible s).2.1 →
      assocGet
        ((invalidateBrokenBookVotes userId postData eligible s).1.personal
          userId) b = none ∧
      (eligible = true →
        assocGet
          ((invalidateBrokenBookVotes userId postData eligible s).1.agg b)
          userId = none)) ∧
    (∀ (userId : String) (postData : PostData) (s : Store),
      (invalidateBrokenBookVotes userId postData false s).1.agg = s.agg) ∧
    (∃ out : Store × VoteBadgeResponse × List RedisOp,
      onVoteBadge sampleEnv samplePost "v" ⟨"b1", Classification.BEST⟩
        bookChainStore = Except.ok out ∧
      out.2.1.counted = true ∧
      out.2.1.invalidatedBadgeIds = ["b2"] ∧
      assocGet (out.1.personal "v") "b1" = some Classification.BEST ∧
      assocGet (out.1.agg "b1") "v" = some Classification.BEST ∧
      assocGet (out.1.personal "v") "b2" = none ∧
      assocGet (out.1.agg "b2") "v" = none ∧
      assocGet (out.1.personal "v") "b3" = some Classification.BEST ∧
      assocGet (out.1.agg "b3") "v" = some Classification.BEST) := by
  refine ⟨walkInvalid_true_eq_spec, ?_, ?_, ?_⟩
  · intro userId postData eligible s b hb
    simp only [invalidateBrokenBookVotes] at hb ⊢
    refine ⟨foldl_inv_personal_mem _ _ _ _ _ hb, ?_⟩
    intro hel
    subst hel
    exact foldl_inv_agg_mem _ _ _ _ hb
  · intro userId postData s
    simp only [invalidateBrokenBookVotes]
    exact foldl_inv_agg_ineligible _ _ _
  · exact ⟨_, rfl, by decide, by decide, by decide, by decide, by decide,
      by decide, by decide, by decide⟩

/-- Witness for C1 at a concrete placement list and vote hash. -/
theorem c1_witness :
    walkInvalid [⟨"x", some 0⟩, ⟨"y", some 1⟩]
        [("y", Classification.BOOK)] true =
      specBrokenBookIds [⟨"x", some 0⟩, ⟨"y", some 1⟩]
        [("y", Classification.BOOK)] :=
  c1_thm.1 [⟨"x", some 0⟩, ⟨"y", some 1⟩] [("y", Classification.BOOK)]
    (by decide)

/-- Claim C1 counterexample: a voter who cast the aggregate-counted votes
`[Book, Book, Best]` while eligible and has since become ineligible (low
karma) changes the first vote to Best; the second Book vote is
invalidated and deleted from the personal view, but because the
aggregate deletion is gated on current eligibility the stale Book vote
survives in the aggregate view — so "deleted from both the personal and
the aggregate view" does not hold for every vote write. -/
theorem c1_counterexample :
    isEligibleVoter envIneligible samplePost "v" = false ∧
    ∃ out : Store × VoteBadgeResponse × List RedisOp,
      onVoteBadge envIneligible samplePost "v" ⟨"b1", Classification.BEST⟩
        bookChainStore = Except.ok out ∧
      out.2.1.invalidatedBadgeIds = ["b2"] ∧
      assocGet (out.1.personal "v") "b2" = none ∧
      assocGet (out.1.agg "b2") "v" = some Classification.BOOK :=
  ⟨by decide, _, rfl, by decide, by decide, by decide⟩

/-- Claim C7 counterexample: an ineligible non-creator voting Book on the
second badge with no vote on the first gets a successful response with
`counted = false`, yet the vote is absent from the final personal view —
the book-chain invalidation removed the just-written vote, so "the vote is
still recorded in the voter's personal view" does not hold universally. -/
theorem c7_counterexample :
    samplePost.creatorId ≠ "v" ∧
    isVoteWindowOpen envIneligible.now samplePost = true ∧
    isEligibleVoter envIneligible samplePost "v" = false ∧
    ∃ out : Store × VoteBadgeResponse × List RedisOp,
      onVoteBadge envIneligible samplePost "v"
        ⟨"b2", Classification.BOOK⟩ emptyStore = Except.ok out ∧
      out.2.1.counted = false ∧
      out.2.1.invalidatedBadgeIds = ["b2"] ∧
      assocGet (out.1.personal "v") "b2" = none :=
  ⟨by decide, by decide, by decide, _, rfl, by decide, by decide, by decide⟩

/-- Witness for C7 at a concrete ineligible vote that is not invalidated. -/
theorem c7_witness :
    ∃ out : Store × VoteBadgeResponse × List RedisOp,
      onVoteBadge envIneligible samplePost "v"
        ⟨"b1", Classification.BEST⟩ emptyStore = Except.ok out ∧
      out.1.agg = emptyStore.agg ∧
      out.2.1.counted = false ∧
      RedisOp.hSetPersonal "v" "b1" Classification.BEST ∈ out.2.2 ∧
      ("b1" ∉ out.2.1.invalidatedBadgeIds →
        assocGet (out.1.personal "v") "b1" = some Classification.BEST) :=
  c7_thm envIneligible samplePost "v" ⟨"b1", Classification.BEST⟩ emptyStore
    (by decide) (by decide) ⟨⟨"b1", some 0⟩, by decide⟩ (by decide)

/-- A trace assembled as `a ++ b ++ c ++ d` ends in `d`. -/
theorem trace_suffix_of_eq {x a b c d : List RedisOp}
    (h : x = a ++ b ++ c ++ d) : ∃ pre, x = pre ++ d :=
  ⟨a ++ b ++ c, h⟩

/-- Claim C9 counterexample: in a successful badge-vote trace a consensus
recompute read (`hGetAgg`) occurs before the cache deletes, so the claim
that the entries are deleted "before recomputing" is false — the code
recomputes first and then clears and rewrites the cache. -/
theorem c9_counterexample :
    ∃ out : Store × VoteBadgeResponse × List RedisOp,
      onVoteBadge sampleEnv samplePost "v" ⟨"b1", Classification.BEST⟩
        emptyStore = Except.ok out ∧
      readBeforeCacheDelete out.2.2 = true :=
  ⟨_, rfl, by decide⟩

/-- Claim C9 (amended): every successful badge-vote write deletes both
the open- and closed-window consensus cache entries after recomputing but
before the fresh value is written: the final closed-window entry is gone,
the final open-window entry is exactly the consensus computed from the
post-write vote set (which contains the just-written vote when counted
and not invalidated), and in the trace both cache deletes come right
before the cache write. -/
theorem c9_thm (env : Env) (postData : PostData) (userId : String)
    (body : VoteBadgeRequest) (s : Store)
    (hcr : postData.creatorId ≠ userId)
    (hw : isVoteWindowOpen env.now postData = true)
    (hfp : ∃ p, List.find? (fun p => decide (p.id = body.badgeId))
      (getAllPlacements postData) = some p) :
    ∃ out : Store × VoteBadgeResponse × List RedisOp,
      onVoteBadge env postData userId body s = Except.ok out ∧
      out.1.cacheClosed = none ∧
      out.1.cacheOpen = some ((getAllPlacements postData).map
        (fun p => (p.id, computeBadgeConsensus (out.1.agg p.id)))) ∧
      (∃ pre, out.2.2 = pre ++
        [RedisOp.delCache true, RedisOp.delCache false,
         RedisOp.setCache true]) ∧
      (out.2.1.counted = true →
        body.badgeId ∉ out.2.1.invalidatedBadgeIds →
        assocGet (out.1.agg body.badgeId) userId =
          some body.classification) := by
  obtain ⟨p, hp⟩ := hfp
  simp only [onVoteBadge]
  rw [if_neg hcr, if_neg (fun hn => hn hw), hp]
  refine ⟨_, rfl, ?_, ?_, ?_, ?_⟩
  · simp [writeConsensusCache, clearConsensusCache]
  · simp [writeConsensusCache, clearConsensusCache]
  · exact trace_suffix_of_eq (by rfl)
  · intro hc hnin
    have hel : isEligibleVoter env postData userId = true := hc
    simp only [hel, writeConsensusCache, clearConsensusCache,
      invalidateBrokenBookVotes, if_true, eq_self_iff_true] at hnin ⊢
    rw [foldl_inv_agg_notin _ _ _ _ _ hnin]
    simp [fnUpdate, assocGet_assocSet_self]

/-- Witness for C9 at a concrete successful vote. -/
theorem c9_witness :
    ∃ out : Store × VoteBadgeResponse × List RedisOp,
      onVoteBadge sampleEnv samplePost "v" ⟨"b2", Classification.GOOD⟩
        emptyStore = Except.ok out ∧
      out.1.cacheClosed = none ∧
      out.1.cacheOpen = some ((getAllPlacements samplePost).map
        (fun p => (p.id, computeBadgeConsensus (out.1.agg p.id)))) ∧
      (∃ pre, out.2.2 = pre ++
        [RedisOp.delCache true, RedisOp.delCache false,
         RedisOp.setCache true]) ∧
      (out.2.1.counted = true →
        "b2" ∉ out.2.1.invalidatedBadgeIds →
        assocGet (out.1.agg "b2") "v" = some Classification.GOOD) :=
  c9_thm sampleEnv samplePost "v" ⟨"b2", Classification.GOOD⟩ emptyStore
    (by decide) (by decide) ⟨⟨"b2", some 1⟩, by decide⟩

/-- Claim C2 counterexample: on `[1,1,1,1,1,1,1,1,10]` the function
returns exactly 1, not the spec's worked value 49/18 ≈ 2.722 — with n = 9,
k = 2 the upper boundary element is `sorted[6] = 1`, not the outlier 10,
which is trimmed away entirely. -/
theorem c2_counterexample :
    interquartileMean [1, 1, 1, 1, 1, 1, 1, 1, 10] = 1 ∧
    interquartileMean [1, 1, 1, 1, 1, 1, 1, 1, 10] ≠ 49/18 := by
  constructor <;>
    norm_num [interquartileMean, List.insertionSort, List.orderedInsert]

/-- Claim C2 (amended): for `[1,1,1,1,1,1,1,1,10]` (n = 9, trim = 2.25,
k = 2, g = 0.25) the engine discards the outlier with partial boundary
weighting: the sorted list is unchanged, the core slice `sorted[3..6)` is
three 1s summing to 3, the boundary elements `sorted[2]` and `sorted[6]`
are both 1 and weighted 0.75 each, the total weight is 9 − 4.5 = 4.5, and
the IQM is (3 + 0.75 + 0.75) / 4.5 = 1 exactly (the value close to 1 the
spec's prose demands). -/
theorem c2_amended :
    interquartileMean [1, 1, 1, 1, 1, 1, 1, 1, 10] = 1 ∧
    List.insertionSort (· ≤ ·) [(1:ℚ), 1, 1, 1, 1, 1, 1, 1, 10] =
      [1, 1, 1, 1, 1, 1, 1, 1, 10] ∧
    ((List.insertionSort (· ≤ ·) [(1:ℚ), 1, 1, 1, 1, 1, 1, 1, 10]).drop
      3).take 3 = [1, 1, 1] ∧
    (List.insertionSort (· ≤ ·) [(1:ℚ), 1, 1, 1, 1, 1, 1, 1, 10]).getD 2 0
      = 1 ∧
    (List.insertionSort (· ≤ ·) [(1:ℚ), 1, 1, 1, 1, 1, 1, 1, 10]).getD 6 0
      = 1 ∧
    interquartileMean [1, 1, 1, 1, 1, 1, 1, 1, 10] =
      (3 + 1 * (3/4) + 1 * (3/4)) / ((9:ℚ) - 2 * ((9:ℚ) * (1/4))) := by
  refine ⟨?_, ?_, ?_, ?_, ?_, ?_⟩ <;>
    norm_num [interquartileMean, List.insertionSort, List.orderedInsert]

/-- Claim C3 (amended): a badge whose countable vote total is positive but
below `MIN_VOTES_FOR_BADGE_CONSENSUS` reports `classification = none` from
`computeBadgeConsensus` (hence on every vote-badge response) and from the
init path while the window is open; but once the voting window has closed,
the init path assigns such a badge a classification anyway. -/
theorem c3_amended (allVotes : Hash)
    (h0 : 0 < (computeBadgeConsensus allVotes).totalVotes)
    (h : (computeBadgeConsensus allVotes).totalVotes <
      MIN_VOTES_FOR_BADGE_CONSENSUS) :
    (computeBadgeConsensus allVotes).classification = none ∧
    (initBadgeConsensus true allVotes).classification = none ∧
    (initBadgeConsensus false allVotes).classification ≠ none := by
  by_cases hl : allVotes.length = 0
  · simp [computeBadgeConsensus, hl] at h0
  · have hlt : allVotes.length < MIN_VOTES_FOR_BADGE_CONSENSUS := by
      simpa [computeBadgeConsensus, hl] using h
    have hnone : (computeBadgeConsensus allVotes).classification = none := by
      simp [computeBadgeConsensus, hl, Nat.not_le.mpr hlt]
    refine ⟨hnone, ?_, ?_⟩
    · simpa [initBadgeConsensus] using hnone
    · simp [initBadgeConsensus, hnone, h0]

/-- Witness for C3 at a one-vote hash. -/
theorem c3_amended_witness :
    (computeBadgeConsensus [("u1", Classification.GOOD)]).classification =
      none ∧
    (initBadgeConsensus true
      [("u1", Classification.GOOD)]).classification = none ∧
    (initBadgeConsensus false
      [("u1", Classification.GOOD)]).classification ≠ none :=
  c3_amended [("u1", Classification.GOOD)] (by decide) (by decide)

/-- Claim C3 counterexample: a single below-quorum vote yields
`classification = some BEST` on the init path once the window is closed,
so below-quorum consensus is not null regardless of the window state. -/
theorem c3_counterexample :
    (initBadgeConsensus false [("u1", Classification.BEST)]).totalVotes <
      MIN_VOTES_FOR_BADGE_CONSENSUS ∧
    (initBadgeConsensus false [("u1", Classification.BEST)]).classification
      = some Classification.BEST := by
  constructor
  · norm_num [initBadgeConsensus, computeBadgeConsensus,
      MIN_VOTES_FOR_BADGE_CONSENSUS]
  · norm_num [initBadgeConsensus, computeBadgeConsensus,
      MIN_VOTES_FOR_BADGE_CONSENSUS, iqmToClassification, interquartileMean,
      CLASSIFICATION_WEIGHT, BOOK_MIN_SHARE, MISS_MIN_SHARE, BOOK_IQM_RANGE,
      MISS_IQM_RANGE]

/-- Claim C4: `iqmToClassification` tries two special-case rules before
the general threshold mapping, each needing both a vote share and an IQM
range: Book when the Book share is ≥ 1/2 and −1 < iqm < 1 (strict);
otherwise Miss when the Miss share is ≥ 1/2 and −2 < iqm < 0 (strict);
only when neither rule fires is the IQM mapped by the fixed best-to-worst
thresholds (`standardIqmMapping`). -/
theorem c4_thm (iqm : ℚ) (voteCounts : Classification → Nat)
    (totalVotes : Nat) (_h : 0 < totalVotes) :
    (((voteCounts Classification.BOOK : ℚ) / (totalVotes : ℚ) ≥ 1/2 ∧
        -1 < iqm ∧ iqm < 1) →
      iqmToClassification iqm voteCounts totalVotes = Classification.BOOK) ∧
    (¬((voteCounts Classification.BOOK : ℚ) / (totalVotes : ℚ) ≥ 1/2 ∧
        -1 < iqm ∧ iqm < 1) →
      ((voteCounts Classification.MISS : ℚ) / (totalVotes : ℚ) ≥ 1/2 ∧
        -2 < iqm ∧ iqm < 0) →
      iqmToClassification iqm voteCounts totalVotes = Classification.MISS) ∧
    (¬((voteCounts Classification.BOOK : ℚ) / (totalVotes : ℚ) ≥ 1/2 ∧
        -1 < iqm ∧ iqm < 1) →
      ¬((voteCounts Classification.MISS : ℚ) / (totalVotes : ℚ) ≥ 1/2 ∧
        -2 < iqm ∧ iqm < 0) →
      iqmToClassification iqm voteCounts totalVotes =
        standardIqmMapping iqm) := by
  refine ⟨?_, ?_, ?_⟩
  · intro hb
    rw [iqmToClassification]
    simp only [BOOK_IQM_RANGE, BOOK_MIN_SHARE]
    rw [if_pos ⟨hb.1, hb.2.1, hb.2.2⟩]
  · intro hnb hm
    rw [iqmToClassification]
    simp only [BOOK_IQM_RANGE, BOOK_MIN_SHARE, MISS_IQM_RANGE, MISS_MIN_SHARE]
    rw [if_neg hnb, if_pos ⟨hm.1, hm.2.1, hm.2.2⟩]
  · intro hnb hnm
    rw [iqmToClassification, standardIqmMapping]
    simp only [BOOK_IQM_RANGE, BOOK_MIN_SHARE, MISS_IQM_RANGE, MISS_MIN_SHARE]
    rw [if_neg hnb, if_neg hnm]

/-- Witness for C4 at iqm = 0 with no Book or Miss votes. -/
theorem c4_witness :
    iqmToClassification 0 (fun _ => 0) 1 = standardIqmMapping 0 :=
  (c4_thm 0 (fun _ => 0) 1 Nat.one_pos).2.2 (by norm_num) (by norm_num)

/-- Claim C10: `interquartileMean` is total — it returns 0 on the empty
list and the sole element on a singleton; for n ≥ 2, the boundary indices
k = ⌊n/4⌋ and n−1−k are in range, the core-slice bounds are within the
list, and the divisor n − 2·(0.25·n) = n/2 is strictly positive, so no
out-of-bounds access or division by zero occurs. -/
theorem c10_thm (values : List ℚ) :
    (values = [] → interquartileMean values = 0) ∧
    (∀ x : ℚ, values = [x] → interquartileMean values = x) ∧
    (2 ≤ values.length →
      values.length / 4 < values.length ∧
      values.length - 1 - values.length / 4 < values.length ∧
      values.length / 4 + 1 ≤ values.length ∧
      values.length - (values.length / 4 + 1) ≤ values.length ∧
      (values.length : ℚ) - 2 * ((values.length : ℚ) * (1/4)) =
        (values.length : ℚ) / 2 ∧
      0 < (values.length : ℚ) - 2 * ((values.length : ℚ) * (1/4))) := by
  refine ⟨?_, ?_, ?_⟩
  · intro hv
    subst hv
    norm_num [interquartileMean]
  · intro x hv
    subst hv
    norm_num [interquartileMean]
  · intro h2
    have hk : values.length / 4 < values.length :=
      Nat.div_lt_self (by omega) (by norm_num)
    have hc : (2:ℚ) ≤ (values.length : ℚ) := by exact_mod_cast h2
    exact ⟨hk, by omega, by omega, by omega, by ring, by linarith⟩

/-- Witness for C10 on a singleton list. -/
theorem c10_witness : interquartileMean [(5:ℚ)] = 5 :=
  (c10_thm [(5:ℚ)]).2.1 5 rfl

end TextingTheory
